import Mathlib

/-!
Verification of the Routinen-App core (src/index.tsx): the duration/time
codec, the cascade recalculator, the list/routine mutation layer and the
active timer state machine, shallowly embedded in Lean.

Modelling conventions:
* A JavaScript `Date` is modelled as an `Int` counting seconds relative to
  midnight of the (irrelevant) current day; `Date.getHours/Minutes/Seconds`
  read the time of day, i.e. the value modulo 86400, in a fixed-offset
  timezone.
* JavaScript numbers are modelled as `Int` (all numbers reaching the core are
  integral); `NaN` is modelled as `Option.none`.
* `Number(s)` is modelled on integer literals (optional whitespace, optional
  sign, decimal digits, and the empty/whitespace string, which JS maps to 0).
  Fractional, exponent and hex literals are outside the model and map to
  `none` (JS `NaN` for the strings this app constructs).
* Opaque `generateId` ids are threaded as explicit parameters.
-/

/-- Whitespace characters recognised by JS `trim` / `Number`, restricted to
the ASCII whitespace that can occur in this app's inputs. -/
def isWsChar (c : Char) : Bool := c = ' ' ∨ c = '\t' ∨ c = '\n' ∨ c = '\r'

/-- JS `String.prototype.trim`: drop leading and trailing whitespace. -/
def jsTrim (cs : List Char) : List Char :=
  ((cs.dropWhile isWsChar).reverse.dropWhile isWsChar).reverse

/-- String-level wrapper for `jsTrim`. -/
def jsTrimStr (s : String) : String := String.mk (jsTrim s.data)

/-- Decimal digit test, `'0'` to `'9'`. -/
def isDigitChar (c : Char) : Bool := 48 ≤ c.toNat ∧ c.toNat ≤ 57

/-- Value of a decimal digit character, `none` on a non-digit. -/
def digitVal (c : Char) : Option Nat :=
  if 48 ≤ c.toNat ∧ c.toNat ≤ 57 then some (c.toNat - 48) else none

/-- Accumulating decimal reader over characters; `none` as soon as a
non-digit is met. -/
def digitsToNatAux (acc : Nat) : List Char → Option Nat
  | [] => some acc
  | c :: cs =>
    match digitVal c with
    | some d => digitsToNatAux (acc * 10 + d) cs
    | none => none

/-- Decimal value of a non-empty all-digit character list, `none` otherwise. -/
def digitsToNat : List Char → Option Nat
  | [] => none
  | c :: cs => digitsToNatAux 0 (c :: cs)

/-- Decimal digit character for `d < 10` (defensively `'9'` above). -/
def digitChar (d : Nat) : Char :=
  if d = 0 then '0' else if d = 1 then '1' else if d = 2 then '2'
  else if d = 3 then '3' else if d = 4 then '4' else if d = 5 then '5'
  else if d = 6 then '6' else if d = 7 then '7' else if d = 8 then '8' else '9'

/-- Fuel-driven decimal rendering of a natural number, most significant digit
first; correct whenever `n < fuel`. -/
def natToDigitsAux (fuel : Nat) (n : Nat) : List Char :=
  match fuel with
  | 0 => []
  | fuel + 1 =>
    if n < 10 then [digitChar n]
    else natToDigitsAux fuel (n / 10) ++ [digitChar (n % 10)]

/-- Decimal digits of a natural number (JS `Number.prototype.toString` for
non-negative integers). -/
def natToDigits (n : Nat) : List Char := natToDigitsAux (n + 1) n

/-- JS `String(x)` for an integer-valued number `x`. -/
def intToString (n : Int) : String :=
  if n < 0 then String.mk ('-' :: natToDigits (-n).toNat)
  else String.mk (natToDigits n.toNat)

/-- JS `x.toString().padStart(2, '0')` for a non-negative integer `x`. -/
def pad2 (n : Nat) : List Char :=
  if (natToDigits n).length < 2 then '0' :: natToDigits n else natToDigits n

/-- JS `Number(s)` on an already-trimmed character list, for the integer
fragment of the numeric grammar (see the module docstring): the empty string
is 0, an optional single sign precedes the digits, anything else is `NaN`
(= `none`). -/
def jsNumberCore (cs : List Char) : Option Int :=
  match cs with
  | [] => some 0
  | c :: rest =>
    if c = '-' then (digitsToNat rest).map (fun n => -(n : Int))
    else if c = '+' then (digitsToNat rest).map (fun n => (n : Int))
    else (digitsToNat cs).map (fun n => (n : Int))

/-- JS `Number(s)` on a character list (whitespace around the literal is
ignored by `Number`). -/
def jsNumberChars (cs : List Char) : Option Int := jsNumberCore (jsTrim cs)

/-- JS `Number(s)` on a string. -/
def jsNumber (s : String) : Option Int := jsNumberChars s.data

/-- JS `s.split(':')` on the character list: always at least one field, empty
fields preserved. -/
def splitOnColon : List Char → List (List Char)
  | [] => [[]]
  | c :: rest =>
    if c = ':' then [] :: splitOnColon rest
    else
      match splitOnColon rest with
      | [] => [[c]]
      | g :: gs => (c :: g) :: gs

/-- Seconds in a day; `HH:MM:SS` arithmetic wraps at this modulus. -/
def secondsPerDay : Int := 86400

/-- Embeds `parseTimeToDate` (src/index.tsx:31): split on `':'`, convert each
part with `Number` (`parts[i] || 0` maps `NaN` and missing parts to 0), and
build the `Date` `setHours(hours, minutes, seconds)`, i.e. the timestamp
`hours * 3600 + minutes * 60 + seconds` seconds from today's midnight. -/
def parseTimeToDate (timeStr : String) : Int :=
  let nums := (splitOnColon timeStr.data).map jsNumberChars
  let hours := (nums.getD 0 none).getD 0
  let minutes := (nums.getD 1 none).getD 0
  let seconds := (nums.getD 2 none).getD 0
  hours * 3600 + minutes * 60 + seconds

/-- Embeds `formatTimeFromDate` (src/index.tsx:41): render the time of day of
a timestamp as `HH:MM:SS`, each component `padStart(2, '0')`-padded. -/
def formatTimeFromDate (date : Int) : String :=
  let tod := (date % secondsPerDay).toNat
  String.mk (pad2 (tod / 3600) ++ ':' :: pad2 (tod % 3600 / 60) ++ ':' :: pad2 (tod % 60))

/-- Embeds `addSecondsToDate` (src/index.tsx:48). -/
def addSecondsToDate (date : Int) (seconds : Int) : Int := date + seconds

/-- Colon branch of `parseDurationToSeconds` (src/index.tsx:60-68): split on
`':'`, `Number` each part, reject `NaN` parts, then accept exactly 2 parts as
`MM:SS` or exactly 3 as `HH:MM:SS`, clamped at zero. -/
def parseDurationColon (input : String) : Option Int :=
  let parts := (splitOnColon input.data).map jsNumberChars
  if parts.any (fun p => p.isNone) then none
  else
    let vals := parts.map (fun p => p.getD 0)
    if vals.length = 2 then some (max 0 (vals.getD 0 0 * 60 + vals.getD 1 0))
    else if vals.length = 3 then
      some (max 0 (vals.getD 0 0 * 3600 + vals.getD 1 0 * 60 + vals.getD 2 0))
    else none

/-- Embeds `parseDurationToSeconds` (src/index.tsx:52): empty/whitespace input
is invalid; a bare number in canonical form (`String(Number(input)) ===
input.trim()`) is whole minutes, clamped at zero; otherwise the colon branch
decides. -/
def parseDurationToSeconds (input : String) : Option Int :=
  if jsTrimStr input = "" then none
  else
    match jsNumber input with
    | some n =>
      if intToString n = jsTrimStr input then some (max 0 (n * 60))
      else parseDurationColon input
    | none => parseDurationColon input

/-- Embeds `formatDuration` (src/index.tsx:71): clamp negatives to zero, then
`HH:MM:SS` (two-digit-padded components) when hours are positive, `MM:SS`
when only minutes are, else bare seconds with a trailing `'s'`. -/
def formatDuration (totalSeconds : Int) : String :=
  let t := totalSeconds.toNat
  let h := t / 3600
  let m := t % 3600 / 60
  let s := t % 60
  if h > 0 then String.mk (pad2 h ++ ':' :: pad2 m ++ ':' :: pad2 s)
  else if m > 0 then String.mk (pad2 m ++ ':' :: pad2 s)
  else String.mk (natToDigits s ++ ['s'])

/-- Embeds `formatTimeLeft` (src/index.tsx:87): clamp negatives to zero, then
`HH:MM:SS` (all components two-digit-padded) when hours are positive, else
`MM:SS`. -/
def formatTimeLeft (totalSeconds : Int) : String :=
  let t := totalSeconds.toNat
  let hours := t / 3600
  let minutes := t % 3600 / 60
  let seconds := t % 60
  if hours > 0 then String.mk (pad2 hours ++ ':' :: pad2 minutes ++ ':' :: pad2 seconds)
  else String.mk (pad2 minutes ++ ':' :: pad2 seconds)

/-- Embeds the `Routine` interface (src/index.tsx:6): times are `"HH:MM:SS"`
strings, the duration is an integral number of seconds. -/
structure Routine where
  id : String
  name : String
  startTime : String
  durationSeconds : Int
  endTime : String
deriving DecidableEq

/-- Embeds the `RoutineList` interface (src/index.tsx:14). -/
structure RoutineList where
  id : String
  title : String
  routines : List Routine
deriving DecidableEq

/-- Embeds the `ActiveRoutineState` interface (src/index.tsx:20): the
at-most-one running countdown. `none` at the option layer is the idle state. -/
structure ActiveRoutineState where
  listId : String
  routineId : String
  currentRoutineIndex : Nat
  timeLeftInSeconds : Int
  routineName : String
deriving DecidableEq

/-- Notifications emitted through the speech/beep sink, reduced to their
payloads: the finished routine's name for `"<name> ist fertig."`, the list
title for `"Alle Routinen in <title> abgeschlossen!"`, and the literal spoken
message for the timer-invalidation stops. -/
inductive TimerEvent where
  | routineComplete (routineName : String)
  | allComplete (listTitle : String)
  | timerStopped (message : String)
deriving DecidableEq

/-- Start-time selection of the `recalculateTimesInList` loop body
(src/index.tsx:699-709). `prevEnd = none` is the `i == 0` case, whose own
start time is authoritative; otherwise the start is the previous routine's
end time, falling back to the wall clock `now` (`new Date()`) when that end
time is the empty string (`!updatedRoutines[i-1].endTime`). -/
def recalcStartOf (now : Int) (prevEnd : Option String) (r : Routine) : Int :=
  match prevEnd with
  | none => parseTimeToDate r.startTime
  | some pe => if pe = "" then now else parseTimeToDate pe

/-- Remainder of the `recalculateTimesInList` loop from the current element
on, carrying the previous routine's (already recomputed) end time. -/
def recalcRoutinesAux (now : Int) (prevEnd : Option String) :
    List Routine → List Routine
  | [] => []
  | r :: rest =>
    let currentStartTimeDate : Int := recalcStartOf now prevEnd r
    let startStr := formatTimeFromDate currentStartTimeDate
    let endStr := formatTimeFromDate (addSecondsToDate currentStartTimeDate r.durationSeconds)
    { r with startTime := startStr, endTime := endStr }
      :: recalcRoutinesAux now (some endStr) rest

/-- Embeds `recalculateTimesInList` (src/index.tsx:694): the prefix before
`startIndex` is untouched, the rest is cascaded by `recalcRoutinesAux`. When
`startIndex > 0` the first processed routine chains from the untouched
predecessor's end time (a predecessor missing from the array, impossible for
an in-range index, is modelled as the empty end time, which the fallback
branch of the loop treats the same way JS treats `undefined`). -/
def recalculateTimesInList (now : Int) (list : RoutineList) (startIndex : Nat) :
    RoutineList :=
  if list.routines = [] then { list with routines := [] }
  else
    let prevEnd : Option String :=
      if startIndex = 0 then none
      else some (((list.routines.get? (startIndex - 1)).map Routine.endTime).getD "")
    { list with
      routines := list.routines.take startIndex
        ++ recalcRoutinesAux now prevEnd (list.routines.drop startIndex) }

/-- Per-list body of `handleAddRoutineToList` (src/index.tsx:717-744) for the
matching list. A truthy `startTimeStr` (supplied and non-empty) gets `":00"`
appended and wins; otherwise a non-empty list chains from its last routine's
end time; otherwise the start defaults to `"08:00:00"`. The new routine is
appended with end = start + duration. -/
def addRoutineToListCore (newId name : String) (durationSeconds : Int)
    (startTimeStr : Option String) (list : RoutineList) : RoutineList :=
  let newRoutineStartTimeStr : String :=
    if startTimeStr.getD "" ≠ "" then startTimeStr.getD "" ++ ":00"
    else if list.routines.length > 0 then
      ((list.routines.getLast?).map Routine.endTime).getD ""
    else "08:00:00"
  let newRoutine : Routine :=
    { id := newId
      name := name
      startTime := newRoutineStartTimeStr
      durationSeconds := durationSeconds
      endTime := formatTimeFromDate
        (addSecondsToDate (parseTimeToDate newRoutineStartTimeStr) durationSeconds) }
  { list with routines := list.routines ++ [newRoutine] }

/-- Embeds `handleAddRoutineToList` (src/index.tsx:717): map over the list
collection, updating the list whose id matches. -/
def handleAddRoutineToList (lists : List RoutineList) (listId newId name : String)
    (durationSeconds : Int) (startTimeStr : Option String) : List RoutineList :=
  lists.map (fun list =>
    if list.id = listId then addRoutineToListCore newId name durationSeconds startTimeStr list
    else list)

/-- Embeds the composition of `handleSubmitNewRoutine` (src/index.tsx:378)
with the per-list update of `handleAddRoutineToList` on the target list: the
caller rejects a blank name, an unparsable duration and a non-positive
duration, and supplies the form's start time only when the list is empty
(`isFirstRoutine ? newRoutineStartTime : undefined`). -/
def submitNewRoutineToList (newId : String)
    (name durationInput startTimeInput : String) (list : RoutineList) : RoutineList :=
  match parseDurationToSeconds durationInput with
  | none => list
  | some durationSec =>
    if jsTrimStr name = "" ∨ durationSec ≤ 0 then list
    else addRoutineToListCore newId name durationSec
      (if list.routines.length = 0 then some startTimeInput else none) list

/-- Embeds `handleSubmitNewRoutine` (src/index.tsx:378) at the list-collection
level: the same guard as `submitNewRoutineToList`, then
`handleAddRoutineToList` on the component's list id. -/
def handleSubmitNewRoutine (lists : List RoutineList) (list : RoutineList)
    (newId name durationInput startTimeInput : String) : List RoutineList :=
  match parseDurationToSeconds durationInput with
  | none => lists
  | some durationSec =>
    if jsTrimStr name = "" ∨ durationSec ≤ 0 then lists
    else handleAddRoutineToList lists list.id newId name durationSec
      (if list.routines.length = 0 then some startTimeInput else none)

/-- Embeds one firing of the timer interval callback (src/index.tsx:640-672)
on a running state, returning the next state (`none` = idle) and the
notifications emitted, in order. With more than one second left it just
decrements. Otherwise it first emits the routine-complete notification for
the finishing routine, then looks the list up: a vanished list yields idle, a
next routine (`nextRoutineIndex < currentList.routines.length`, i.e.
`routines.get? nextRoutineIndex = some nextRoutine`) starts running with its
full duration, and otherwise the all-complete notification is emitted and the
state becomes idle. -/
def timerTick (lists : List RoutineList) (prev : ActiveRoutineState) :
    Option ActiveRoutineState × List TimerEvent :=
  if prev.timeLeftInSeconds ≤ 1 then
    let evs := [TimerEvent.routineComplete prev.routineName]
    match lists.find? (fun l => l.id = prev.listId) with
    | none => (none, evs)
    | some currentList =>
      let nextRoutineIndex := prev.currentRoutineIndex + 1
      match currentList.routines.get? nextRoutineIndex with
      | some nextRoutine =>
        (some { listId := prev.listId
                routineId := nextRoutine.id
                currentRoutineIndex := nextRoutineIndex
                timeLeftInSeconds := nextRoutine.durationSeconds
                routineName := nextRoutine.name }, evs)
      | none => (none, evs ++ [TimerEvent.allComplete currentList.title])
  else (some { prev with timeLeftInSeconds := prev.timeLeftInSeconds - 1 }, [])

/-- Per-list body of `handleDeleteRoutine` (src/index.tsx:797-824) for the
list whose id matches `listId`. Returns the recalculated list, `some a` when
`setActiveRoutineState a` was called (`none` when the active state is left
alone), and the notifications emitted. `routineIndex` is JS `findIndex`
(`-1` when absent), and the recalculation starts at `max(0, routineIndex-1)`.
The active timer is stopped when it belongs to this list and the list became
empty, the deleted routine was the active one, or the active index no longer
holds the active routine's id; otherwise only its display name is
refreshed. -/
def deleteFromMatchingList (listId routineId : String) (now : Int)
    (activeRoutineState : Option ActiveRoutineState) (list : RoutineList) :
    RoutineList × Option (Option ActiveRoutineState) × List TimerEvent :=
  let updatedRoutines := list.routines.filter (fun r => r.id ≠ routineId)
  let routineIndex : Int :=
    ((list.routines.findIdx? (fun r => r.id = routineId)).map Int.ofNat).getD (-1)
  let recalculatedList :=
    recalculateTimesInList now { list with routines := updatedRoutines }
      (max 0 (routineIndex - 1)).toNat
  match activeRoutineState with
  | some act =>
    if act.listId = listId then
      if updatedRoutines.length = 0 ∨ act.routineId = routineId then
        (recalculatedList, some none,
          [TimerEvent.timerStopped
            "Timer gestoppt, da die aktive oder einzige Routine gelöscht wurde."])
      else if ¬ (act.currentRoutineIndex < updatedRoutines.length)
          ∨ (updatedRoutines.get? act.currentRoutineIndex).map Routine.id
              ≠ some act.routineId then
        (recalculatedList, some none,
          [TimerEvent.timerStopped
            "Timer gestoppt aufgrund von Änderungen. Bitte neu starten."])
      else
        (recalculatedList,
          some (some { act with
            routineName :=
              (((updatedRoutines.get? act.currentRoutineIndex).map Routine.name).getD
                act.routineName) }), [])
    else (recalculatedList, none, [])
  | none => (recalculatedList, none, [])

/-- Embeds `handleDeleteRoutine` (src/index.tsx:797): map over the lists,
processing each matching list; the closure reads the pre-call active state
throughout, the last `setActiveRoutineState` call wins, and notifications
accumulate in order. -/
def handleDeleteRoutine (lists : List RoutineList)
    (activeRoutineState : Option ActiveRoutineState) (listId routineId : String)
    (now : Int) : List RoutineList × Option ActiveRoutineState × List TimerEvent :=
  let results := lists.map (fun list =>
    if list.id = listId then
      deleteFromMatchingList listId routineId now activeRoutineState list
    else (list, none, []))
  (results.map (fun r => r.1),
   results.foldl (fun acc r => match r.2.1 with | some v => v | none => acc)
     activeRoutineState,
   (results.map (fun r => r.2.2)).flatten)

/-- JS `arr.splice(k, 0, x)` as a pure insertion: past-the-end indices
append. -/
def jsSpliceInsert (l : List RoutineList) (k : Nat) (x : RoutineList) :
    List RoutineList :=
  l.take k ++ x :: l.drop k

/-- Embeds `handleMoveList` (src/index.tsx:984): remove the list at
`sourceIndex` (an out-of-range splice removes nothing and leaves the
collection unchanged, since `movedList` is then `undefined`), decrement the
target index when the source preceded it, and re-insert. -/
def handleMoveList (lists : List RoutineList)
    (sourceIndex targetIndexInContainer : Nat) : List RoutineList :=
  match lists.get? sourceIndex with
  | none => lists
  | some movedList =>
    let newLists := lists.eraseIdx sourceIndex
    let actualTargetIndex :=
      if sourceIndex < targetIndexInContainer then targetIndexInContainer - 1
      else targetIndexInContainer
    jsSpliceInsert newLists actualTargetIndex movedList

/-- Embeds `handleMoveList` as a transformer of the whole application state
`(lists, activeRoutineState)`: the handler calls only `setLists`, so the
active timer component is untouched. -/
def handleMoveListState (lists : List RoutineList)
    (activeRoutineState : Option ActiveRoutineState)
    (sourceIndex targetIndexInContainer : Nat) :
    List RoutineList × Option ActiveRoutineState :=
  (handleMoveList lists sourceIndex targetIndexInContainer, activeRoutineState)

/-- Characters produced by `digitChar` are decimal digits, are not whitespace
and are not the separator `':'`. -/
theorem digitChar_prop (d : Nat) :
    isDigitChar (digitChar d) = true ∧ isWsChar (digitChar d) = false
      ∧ digitChar d ≠ ':' := by
  unfold digitChar
  repeat' split
  all_goals decide

/-- Reading back the digit character of `d < 10` recovers `d`. -/
theorem digitVal_digitChar {d : Nat} (h : d < 10) :
    digitVal (digitChar d) = some d := by
  interval_cases d <;> decide

/-- A non-digit character has no digit value. -/
theorem digitVal_none_of {c : Char} (h : isDigitChar c = false) :
    digitVal c = none := by
  unfold isDigitChar at h
  unfold digitVal
  rw [if_neg (of_decide_eq_false h)]

/-- The accumulating reader distributes over concatenation. -/
theorem digitsToNatAux_append (xs ys : List Char) (acc : Nat) :
    digitsToNatAux acc (xs ++ ys)
      = (digitsToNatAux acc xs).bind (fun a => digitsToNatAux a ys) := by
  induction xs generalizing acc with
  | nil => simp [digitsToNatAux]
  | cons c xs ih =>
    simp only [List.cons_append, digitsToNatAux]
    cases hv : digitVal c with
    | none => simp
    | some d => simpa using ih (acc * 10 + d)

/-- Rendering digits never yields an empty list when there is fuel. -/
theorem natToDigitsAux_ne_nil {fuel n : Nat} (h : 0 < fuel) :
    natToDigitsAux fuel n ≠ [] := by
  cases fuel with
  | zero => omega
  | succ fuel =>
    unfold natToDigitsAux
    split
    · simp
    · simp

/-- Every character rendered by `natToDigitsAux` is a decimal digit. -/
theorem natToDigitsAux_digits {fuel n : Nat} :
    ∀ c ∈ natToDigitsAux fuel n, isDigitChar c = true := by
  induction fuel generalizing n with
  | zero => intro c hc; simp [natToDigitsAux] at hc
  | succ fuel ih =>
    intro c hc
    unfold natToDigitsAux at hc
    split at hc
    · rcases List.mem_singleton.mp hc with rfl
      exact (digitChar_prop n).1
    · rcases List.mem_append.mp hc with h | h
      · exact ih c h
      · rcases List.mem_singleton.mp h with rfl
        exact (digitChar_prop (n % 10)).1

/-- Reading back the rendered digits of `n < fuel` recovers `n`, with the
accumulator shifted by the number of digits. -/
theorem digitsToNatAux_natToDigitsAux {fuel n : Nat} (h : n < fuel) (acc : Nat) :
    digitsToNatAux acc (natToDigitsAux fuel n)
      = some (acc * 10 ^ (natToDigitsAux fuel n).length + n) := by
  induction fuel generalizing n acc with
  | zero => omega
  | succ fuel ih =>
    unfold natToDigitsAux
    split
    · next hlt =>
      simp [digitsToNatAux, digitVal_digitChar hlt]
    · next hge =>
      rw [digitsToNatAux_append]
      rw [ih (show n / 10 < fuel by omega) acc]
      have hm : n % 10 < 10 := Nat.mod_lt n (by omega)
      simp only [Option.some_bind, digitsToNatAux, digitVal_digitChar hm]
      rw [List.length_append, List.length_singleton, pow_succ]
      generalize (natToDigitsAux fuel (n / 10)).length = L
      congr 1
      conv_rhs => rw [← Nat.div_add_mod n 10]
      ring

/-- The decimal rendering of `n` is non-empty. -/
theorem natToDigits_ne_nil (n : Nat) : natToDigits n ≠ [] :=
  natToDigitsAux_ne_nil (by omega)

/-- Every character of the decimal rendering of `n` is a digit. -/
theorem natToDigits_digits (n : Nat) : ∀ c ∈ natToDigits n, isDigitChar c = true :=
  natToDigitsAux_digits

/-- On non-empty input `digitsToNat` is the accumulating reader from zero. -/
theorem digitsToNat_eq_aux {cs : List Char} (h : cs ≠ []) :
    digitsToNat cs = digitsToNatAux 0 cs := by
  cases cs with
  | nil => exact absurd rfl h
  | cons c cs => rfl

/-- Round trip: parsing the decimal rendering of `n` gives back `n`. -/
theorem digitsToNat_natToDigits (n : Nat) : digitsToNat (natToDigits n) = some n := by
  rw [digitsToNat_eq_aux (natToDigits_ne_nil n)]
  unfold natToDigits
  rw [digitsToNatAux_natToDigitsAux (Nat.lt_succ_self n) 0]
  simp

/-- Every character of a two-padded rendering is a digit. -/
theorem pad2_digits (n : Nat) : ∀ c ∈ pad2 n, isDigitChar c = true := by
  unfold pad2
  split
  · intro c hc
    rcases List.mem_cons.mp hc with rfl | h
    · decide
    · exact natToDigits_digits n c h
  · exact natToDigits_digits n

/-- A two-padded rendering is non-empty. -/
theorem pad2_ne_nil (n : Nat) : pad2 n ≠ [] := by
  unfold pad2
  split
  · simp
  · exact natToDigits_ne_nil n

/-- A two-padded rendering has at least two characters. -/
theorem pad2_length (n : Nat) : 2 ≤ (pad2 n).length := by
  unfold pad2
  split
  · next h =>
    have := natToDigits_ne_nil n
    simp only [List.length_cons]
    cases hc : natToDigits n with
    | nil => exact absurd hc this
    | cons c cs => simp
  · next h => omega

/-- Digit lists starting with `'0'` read back the same value. -/
theorem digitsToNat_cons_zero {cs : List Char} (h : cs ≠ []) :
    digitsToNat ('0' :: cs) = digitsToNat cs := by
  rw [digitsToNat_eq_aux (by simp), digitsToNat_eq_aux h]
  show digitsToNatAux 0 ('0' :: cs) = digitsToNatAux 0 cs
  simp [digitsToNatAux, digitVal]

/-- Round trip: parsing the two-padded rendering of `n` gives back `n`. -/
theorem digitsToNat_pad2 (n : Nat) : digitsToNat (pad2 n) = some n := by
  unfold pad2
  split
  · rw [digitsToNat_cons_zero (natToDigits_ne_nil n)]
    exact digitsToNat_natToDigits n
  · exact digitsToNat_natToDigits n

/-- A digit character is not whitespace. -/
theorem not_ws_of_digit {c : Char} (h : isDigitChar c = true) : isWsChar c = false := by
  cases hw : isWsChar c with
  | false => rfl
  | true =>
    simp only [isWsChar, Bool.decide_or, Bool.or_eq_true, decide_eq_true_eq] at hw
    rcases hw with rfl | rfl | rfl | rfl <;> simp [isDigitChar] at h

/-- A digit character is not the separator `':'`. -/
theorem ne_colon_of_digit {c : Char} (h : isDigitChar c = true) : c ≠ ':' := by
  intro he
  rw [he] at h
  exact absurd h (by decide)

/-- Dropping whitespace from a whitespace-free list is the identity. -/
theorem dropWhile_ws_eq_self {cs : List Char} (h : ∀ c ∈ cs, isWsChar c = false) :
    cs.dropWhile isWsChar = cs := by
  cases cs with
  | nil => rfl
  | cons c cs => simp [List.dropWhile, h c (by simp)]

/-- Trimming a whitespace-free list is the identity. -/
theorem jsTrim_eq_self {cs : List Char} (h : ∀ c ∈ cs, isWsChar c = false) :
    jsTrim cs = cs := by
  unfold jsTrim
  rw [dropWhile_ws_eq_self h]
  rw [dropWhile_ws_eq_self (fun c hc => h c (List.mem_reverse.mp hc))]
  exact List.reverse_reverse cs

/-- As soon as a non-digit occurs, the accumulating reader fails. -/
theorem digitsToNatAux_none_of_mem {cs : List Char} {c : Char} (hm : c ∈ cs)
    (hc : isDigitChar c = false) : ∀ acc, digitsToNatAux acc cs = none := by
  induction cs with
  | nil => simp at hm
  | cons d cs ih =>
    intro acc
    rcases List.mem_cons.mp hm with rfl | hmem
    · simp [digitsToNatAux, digitVal_none_of hc]
    · unfold digitsToNatAux
      cases hv : digitVal d with
      | none => rfl
      | some k => exact ih hmem (acc * 10 + k)

/-- A list containing a non-digit has no decimal value. -/
theorem digitsToNat_none_of_mem {cs : List Char} {c : Char} (hm : c ∈ cs)
    (hc : isDigitChar c = false) : digitsToNat cs = none := by
  cases cs with
  | nil => rfl
  | cons d cs => exact digitsToNatAux_none_of_mem hm hc 0

/-- On a non-empty all-digit list, `Number` returns the decimal value. -/
theorem jsNumberCore_digits {cs : List Char} {n : Nat}
    (hd : ∀ c ∈ cs, isDigitChar c = true) (hv : digitsToNat cs = some n) :
    jsNumberCore cs = some (n : Int) := by
  cases cs with
  | nil => simp [digitsToNat] at hv
  | cons c cs =>
    have hc := hd c (by simp)
    have h1 : c ≠ '-' := by intro he; rw [he] at hc; exact absurd hc (by decide)
    have h2 : c ≠ '+' := by intro he; rw [he] at hc; exact absurd hc (by decide)
    simp only [jsNumberCore, if_neg h1, if_neg h2, hv]
    rfl

/-- On a two-padded rendering, `Number` (with its own trimming) returns the
value. -/
theorem jsNumberChars_pad2 (n : Nat) : jsNumberChars (pad2 n) = some (n : Int) := by
  unfold jsNumberChars
  rw [jsTrim_eq_self (fun c hc => not_ws_of_digit (pad2_digits n c hc))]
  exact jsNumberCore_digits (pad2_digits n) (digitsToNat_pad2 n)

/-- Splitting a colon-free list returns the single field. -/
theorem splitOnColon_no_colon {cs : List Char} (h : ∀ c ∈ cs, c ≠ ':') :
    splitOnColon cs = [cs] := by
  induction cs with
  | nil => rfl
  | cons c cs ih =>
    have hcs := ih (fun d hd => h d (by simp [hd]))
    have hc : c ≠ ':' := h c (by simp)
    simp only [splitOnColon, if_neg hc, hcs]

/-- Unfolding equation of `splitOnColon` on a non-empty list. -/
theorem splitOnColon_cons (c : Char) (rest : List Char) :
    splitOnColon (c :: rest)
      = if c = ':' then [] :: splitOnColon rest
        else
          match splitOnColon rest with
          | [] => [[c]]
          | g :: gs => (c :: g) :: gs := rfl

/-- Splitting a list that starts with a colon-free field followed by `':'`
peels off that field. -/
theorem splitOnColon_append {xs ys : List Char} (h : ∀ c ∈ xs, c ≠ ':') :
    splitOnColon (xs ++ ':' :: ys) = xs :: splitOnColon ys := by
  induction xs with
  | nil => simp [splitOnColon]
  | cons c xs ih =>
    have hxs := ih (fun d hd => h d (by simp [hd]))
    have hc : c ≠ ':' := h c (by simp)
    rw [List.cons_append, splitOnColon_cons, if_neg hc, hxs]

/-- Splitting an `HH:MM:SS` rendering yields exactly its three fields. -/
theorem splitOnColon_time (a b c : Nat) :
    splitOnColon (pad2 a ++ ':' :: pad2 b ++ ':' :: pad2 c)
      = [pad2 a, pad2 b, pad2 c] := by
  rw [List.append_assoc, List.cons_append]
  rw [splitOnColon_append (fun d hd => ne_colon_of_digit (pad2_digits a d hd))]
  rw [splitOnColon_append (fun d hd => ne_colon_of_digit (pad2_digits b d hd))]
  rw [splitOnColon_no_colon (fun d hd => ne_colon_of_digit (pad2_digits c d hd))]

/-- Round trip of the wall-time codec: parsing a formatted timestamp yields
its time of day. -/
theorem parseTimeToDate_formatTimeFromDate (t : Int) :
    parseTimeToDate (formatTimeFromDate t) = t % secondsPerDay := by
  have hnn : 0 ≤ t % secondsPerDay := Int.emod_nonneg t (by decide)
  have hdata : (formatTimeFromDate t).data
      = pad2 ((t % secondsPerDay).toNat / 3600)
        ++ ':' :: pad2 ((t % secondsPerDay).toNat % 3600 / 60)
        ++ ':' :: pad2 ((t % secondsPerDay).toNat % 60) := rfl
  unfold parseTimeToDate
  rw [hdata, splitOnColon_time]
  simp only [List.map_cons, List.map_nil, jsNumberChars_pad2, List.getD_cons_zero,
    List.getD_cons_succ, Option.getD_some]
  simp only [secondsPerDay] at hnn ⊢
  omega

/-- Formatting depends only on the time of day. -/
theorem formatTimeFromDate_emod (t : Int) :
    formatTimeFromDate (t % secondsPerDay) = formatTimeFromDate t := by
  unfold formatTimeFromDate
  have : t % secondsPerDay % secondsPerDay = t % secondsPerDay := by
    unfold secondsPerDay; omega
  rw [this]

/-- A formatted timestamp is never the empty string. -/
theorem formatTimeFromDate_ne_empty (t : Int) : formatTimeFromDate t ≠ "" := by
  unfold formatTimeFromDate
  intro h
  have hd := congrArg String.data h
  simp only [] at hd
  cases hp : pad2 ((t % secondsPerDay).toNat / 3600) with
  | nil => exact pad2_ne_nil _ hp
  | cons c cs => rw [hp] at hd; simp [String.data] at hd

/-- Unfolding equation of the cascade loop on a non-empty suffix. -/
theorem recalcRoutinesAux_cons (now : Int) (prevEnd : Option String) (r : Routine)
    (rest : List Routine) :
    recalcRoutinesAux now prevEnd (r :: rest)
      = { r with
          startTime := formatTimeFromDate (recalcStartOf now prevEnd r)
          endTime := formatTimeFromDate (recalcStartOf now prevEnd r + r.durationSeconds) }
        :: recalcRoutinesAux now
          (some (formatTimeFromDate (recalcStartOf now prevEnd r + r.durationSeconds)))
          rest := rfl

/-- The cascade loop preserves the number of routines. -/
theorem recalcRoutinesAux_length (now : Int) (prevEnd : Option String)
    (rs : List Routine) :
    (recalcRoutinesAux now prevEnd rs).length = rs.length := by
  induction rs generalizing prevEnd with
  | nil => rfl
  | cons r rest ih => rw [recalcRoutinesAux_cons, List.length_cons, ih, List.length_cons]

/-- Chaining from a formatted end time reproduces that end time exactly: the
fallback branch is not taken (a formatted time is non-empty) and
format-parse-format is stable. -/
theorem formatTimeFromDate_recalcStartOf (now X : Int) (r : Routine) :
    formatTimeFromDate (recalcStartOf now (some (formatTimeFromDate X)) r)
      = formatTimeFromDate X := by
  simp only [recalcStartOf]
  rw [if_neg (formatTimeFromDate_ne_empty X), parseTimeToDate_formatTimeFromDate,
    formatTimeFromDate_emod]

/-- Adjacent routines in the cascade's output are chained: each start time is
the previous routine's (just recomputed) end time. -/
theorem recalcRoutinesAux_chain (now : Int) (rs : List Routine) :
    ∀ (prevEnd : Option String) (j : Nat) (r r' : Routine),
      (recalcRoutinesAux now prevEnd rs).get? j = some r' →
      (recalcRoutinesAux now prevEnd rs).get? (j + 1) = some r →
      r.startTime = r'.endTime := by
  induction rs with
  | nil => intro pe j r r' h _; simp [recalcRoutinesAux] at h
  | cons r0 rest ih =>
    intro pe j r r' hj hj1
    rw [recalcRoutinesAux_cons] at hj hj1
    cases j with
    | zero =>
      rw [List.get?_cons_zero] at hj
      rw [List.get?_cons_succ] at hj1
      cases rest with
      | nil => simp [recalcRoutinesAux] at hj1
      | cons r1 rest' =>
        rw [recalcRoutinesAux_cons, List.get?_cons_zero] at hj1
        injection hj with hj'
        injection hj1 with hj1'
        subst hj'
        subst hj1'
        exact formatTimeFromDate_recalcStartOf now _ r1
    | succ j =>
      rw [List.get?_cons_succ] at hj
      rw [List.get?_cons_succ] at hj1
      exact ih _ j r r' hj hj1

/-- Every routine in the cascade's output satisfies the derived-end
invariant: its end time is its start time plus its duration, as wall-clock
arithmetic within a day. -/
theorem recalcRoutinesAux_endinv (now : Int) (rs : List Routine) :
    ∀ (prevEnd : Option String) (j : Nat) (r : Routine),
      (recalcRoutinesAux now prevEnd rs).get? j = some r →
      parseTimeToDate r.endTime
        = (parseTimeToDate r.startTime + r.durationSeconds) % secondsPerDay := by
  induction rs with
  | nil => intro pe j r h; simp [recalcRoutinesAux] at h
  | cons r0 rest ih =>
    intro pe j r hj
    rw [recalcRoutinesAux_cons] at hj
    cases j with
    | zero =>
      rw [List.get?_cons_zero] at hj
      injection hj with hj'
      subst hj'
      show parseTimeToDate
          (formatTimeFromDate (recalcStartOf now pe r0 + r0.durationSeconds))
        = (parseTimeToDate (formatTimeFromDate (recalcStartOf now pe r0))
            + r0.durationSeconds) % secondsPerDay
      rw [parseTimeToDate_formatTimeFromDate, parseTimeToDate_formatTimeFromDate]
      unfold secondsPerDay
      omega
    | succ j =>
      rw [List.get?_cons_succ] at hj
      exact ih _ j r hj

/-- Unfolding equation of the recalculator on a non-empty list. -/
theorem recalculateTimesInList_routines (now : Int) (l : RoutineList) (si : Nat)
    (h : l.routines ≠ []) :
    (recalculateTimesInList now l si).routines
      = l.routines.take si
        ++ recalcRoutinesAux now
          (if si = 0 then none
           else some (((l.routines.get? (si - 1)).map Routine.endTime).getD ""))
          (l.routines.drop si) := by
  unfold recalculateTimesInList
  rw [if_neg h]

/-- The recalculator preserves the number of routines. -/
theorem recalculateTimesInList_length (now : Int) (l : RoutineList) (si : Nat) :
    (recalculateTimesInList now l si).routines.length = l.routines.length := by
  by_cases h : l.routines = []
  · simp [recalculateTimesInList, h]
  · rw [recalculateTimesInList_routines now l si h, List.length_append,
      recalcRoutinesAux_length, List.length_take, List.length_drop]
    omega

/-- C1: for every non-empty routine sequence and every starting index
`fromIndex ≥ 0` (a `Nat` here), after `recalculateTimesInList` runs, every
index `i > fromIndex` satisfies `routines[i].startTime =
routines[i-1].endTime` and `routines[i].endTime = routines[i].startTime +
routines[i].durationSeconds` as wall-clock addition within a day, while every
element at an index `< fromIndex` is left untouched. -/
theorem recalculateTimesInList_chain_invariant (now : Int) (l : RoutineList)
    (fromIndex : Nat) (hne : l.routines ≠ []) :
    (∀ (i : Nat) (r r' : Routine), fromIndex < i →
        (recalculateTimesInList now l fromIndex).routines.get? i = some r →
        (recalculateTimesInList now l fromIndex).routines.get? (i - 1) = some r' →
        r.startTime = r'.endTime
          ∧ parseTimeToDate r.endTime
              = (parseTimeToDate r.startTime + r.durationSeconds) % secondsPerDay)
    ∧ (∀ i : Nat, i < fromIndex →
        (recalculateTimesInList now l fromIndex).routines.get? i
          = l.routines.get? i) := by
  constructor
  · intro i r r' hi hr hr'
    rw [recalculateTimesInList_routines now l fromIndex hne] at hr hr'
    have hm : (l.routines.take fromIndex).length = min fromIndex l.routines.length :=
      List.length_take fromIndex l.routines
    have hm1 : (l.routines.take fromIndex).length ≤ i - 1 := by omega
    have hm0 : (l.routines.take fromIndex).length ≤ i := by omega
    rw [List.get?_append_right hm0] at hr
    rw [List.get?_append_right hm1] at hr'
    have hidx : i - (l.routines.take fromIndex).length
        = (i - 1 - (l.routines.take fromIndex).length) + 1 := by omega
    rw [hidx] at hr
    exact ⟨recalcRoutinesAux_chain now _ _ _ r r' hr' hr,
      recalcRoutinesAux_endinv now _ _ _ r hr⟩
  · intro i hi
    by_cases hlen : i < l.routines.length
    · have ht : i < (l.routines.take fromIndex).length := by
        rw [List.length_take]; omega
      rw [recalculateTimesInList_routines now l fromIndex hne,
        List.get?_append ht, List.get?_take hi]
    · have h1 : l.routines.get? i = none := List.get?_eq_none.mpr (by omega)
      have h2 : (recalculateTimesInList now l fromIndex).routines.get? i = none :=
        List.get?_eq_none.mpr (by rw [recalculateTimesInList_length]; omega)
      rw [h1, h2]

def wRoutineA : Routine :=
  { id := "a", name := "Aufstehen", startTime := "08:00:00",
    durationSeconds := 1500, endTime := "08:25:00" }

def wRoutineB : Routine :=
  { id := "b", name := "Duschen", startTime := "00:00:00",
    durationSeconds := 600, endTime := "00:00:00" }

def wList : RoutineList :=
  { id := "l1", title := "Morgenroutine", routines := [wRoutineA, wRoutineB] }

/-- Witness for C1 at a concrete two-routine list, `fromIndex = 0`, `i = 1`. -/
theorem recalculateTimesInList_chain_invariant_witness :
    wList.routines ≠ [] ∧
    ∃ r r' : Routine,
      (recalculateTimesInList 0 wList 0).routines.get? 1 = some r
        ∧ (recalculateTimesInList 0 wList 0).routines.get? 0 = some r'
        ∧ r.startTime = r'.endTime
        ∧ parseTimeToDate r.endTime
            = (parseTimeToDate r.startTime + r.durationSeconds) % secondsPerDay := by
  refine ⟨by decide, ?_⟩
  obtain ⟨r, hr⟩ : ∃ r, (recalculateTimesInList 0 wList 0).routines.get? 1 = some r :=
    ⟨_, rfl⟩
  obtain ⟨r', hr'⟩ : ∃ r', (recalculateTimesInList 0 wList 0).routines.get? 0 = some r' :=
    ⟨_, rfl⟩
  have h := (recalculateTimesInList_chain_invariant 0 wList 0 (by decide)).1 1 r r'
    (by decide) hr hr'
  exact ⟨r, r', hr, hr', h.1, h.2⟩

/-- Splitting an `MM:SS` rendering yields exactly its two fields. -/
theorem splitOnColon_time2 (a b : Nat) :
    splitOnColon (pad2 a ++ ':' :: pad2 b) = [pad2 a, pad2 b] := by
  rw [splitOnColon_append (fun d hd => ne_colon_of_digit (pad2_digits a d hd))]
  rw [splitOnColon_no_colon (fun d hd => ne_colon_of_digit (pad2_digits b d hd))]

/-- Rendering a number below ten takes a single digit. -/
theorem natToDigitsAux_small {fuel n : Nat} (hf : 0 < fuel) (h : n < 10) :
    natToDigitsAux fuel n = [digitChar n] := by
  cases fuel with
  | zero => omega
  | succ fuel => simp [natToDigitsAux, h]

/-- Decimal renderings of numbers below one hundred take at most two
digits. -/
theorem natToDigits_length_le_two {n : Nat} (h : n < 100) :
    (natToDigits n).length ≤ 2 := by
  unfold natToDigits
  by_cases h10 : n < 10
  · rw [natToDigitsAux_small (by omega) h10]
    simp
  · unfold natToDigitsAux
    rw [if_neg h10, natToDigitsAux_small (by omega) (by omega)]
    simp

/-- Two-padded renderings of numbers below one hundred take exactly two
characters. -/
theorem pad2_length_of_lt {n : Nat} (h : n < 100) : (pad2 n).length = 2 := by
  have h2 := natToDigits_length_le_two h
  have h1 : natToDigits n ≠ [] := natToDigits_ne_nil n
  unfold pad2
  split
  · next hlt =>
    have hpos : 0 < (natToDigits n).length := List.length_pos.mpr h1
    simp only [List.length_cons]
    omega
  · next hge => omega

/-- Unfolding of `formatTimeLeft` when hours are positive. -/
theorem formatTimeLeft_hours (t : Int) (h : 0 < t.toNat / 3600) :
    formatTimeLeft t
      = String.mk (pad2 (t.toNat / 3600) ++ ':' :: pad2 (t.toNat % 3600 / 60)
          ++ ':' :: pad2 (t.toNat % 60)) := by
  simp only [formatTimeLeft]
  rw [if_pos h]

/-- Unfolding of `formatTimeLeft` when hours are zero. -/
theorem formatTimeLeft_noHours (t : Int) (h : t.toNat / 3600 = 0) :
    formatTimeLeft t
      = String.mk (pad2 (t.toNat % 3600 / 60) ++ ':' :: pad2 (t.toNat % 60)) := by
  simp only [formatTimeLeft]
  rw [if_neg (by omega)]

/-- C6: `formatTimeLeft` zero-pads every rendered component (each colon field
is at least two characters, and exactly two below 100 hours) and renders
three colon fields (`H:MM:SS`) when hours are positive, two (`MM:SS`)
otherwise, with no bare-seconds shorthand; in particular
`formatTimeLeft 0 = "00:00"` and `formatTimeLeft 3661 = "01:01:01"`. -/
theorem formatTimeLeft_spec :
    formatTimeLeft 0 = "00:00" ∧ formatTimeLeft 3661 = "01:01:01"
    ∧ (∀ t : Int,
        (splitOnColon (formatTimeLeft t).data).length
          = if 3600 ≤ t then 3 else 2)
    ∧ (∀ t : Int, ∀ p ∈ splitOnColon (formatTimeLeft t).data, 2 ≤ p.length) := by
  have hsplit : ∀ t : Int,
      splitOnColon (formatTimeLeft t).data
        = if 0 < t.toNat / 3600 then
            [pad2 (t.toNat / 3600), pad2 (t.toNat % 3600 / 60), pad2 (t.toNat % 60)]
          else [pad2 (t.toNat % 3600 / 60), pad2 (t.toNat % 60)] := by
    intro t
    by_cases h : 0 < t.toNat / 3600
    · rw [formatTimeLeft_hours t h, if_pos h]
      exact splitOnColon_time _ _ _
    · rw [formatTimeLeft_noHours t (by omega), if_neg h]
      exact splitOnColon_time2 _ _
  refine ⟨by decide, by decide, ?_, ?_⟩
  · intro t
    rw [hsplit t]
    by_cases h : 0 < t.toNat / 3600
    · rw [if_pos h, if_pos (show (3600:Int) ≤ t by omega)]
      rfl
    · rw [if_neg h, if_neg (show ¬ (3600:Int) ≤ t by omega)]
      rfl
  · intro t p hp
    rw [hsplit t] at hp
    split at hp <;>
      simp only [List.mem_cons, List.not_mem_nil, or_false] at hp <;>
      rcases hp with rfl | rfl | rfl <;>
      exact pad2_length _

/-- Witness for C6's field-count facts at 3661 and 59 seconds. -/
theorem formatTimeLeft_spec_witness :
    (splitOnColon (formatTimeLeft 3661).data).length = 3
      ∧ (splitOnColon (formatTimeLeft 59).data).length = 2 := by
  constructor
  · rw [formatTimeLeft_spec.2.2.1 3661]
    decide
  · rw [formatTimeLeft_spec.2.2.1 59]
    decide

/-- C7 counterexample: the claim renders the hour component of `formatDuration`
without forced zero-padding (so 3661 seconds would read `"1:01:01"`) and the
minute component of the `M:SS` form unpadded (300 seconds would read
`"5:00"`); the code pads both to two digits. -/
theorem formatDuration_padding_counterexample :
    formatDuration 3661 = "01:01:01" ∧ formatDuration 3661 ≠ "1:01:01"
      ∧ formatDuration 300 = "05:00" ∧ formatDuration 300 ≠ "5:00" := by
  refine ⟨by decide, by decide, by decide, by decide⟩

/-- Unfolding of `formatDuration` when hours are positive. -/
theorem formatDuration_hours (n : Int) (h : 0 < n.toNat / 3600) :
    formatDuration n
      = String.mk (pad2 (n.toNat / 3600) ++ ':' :: pad2 (n.toNat % 3600 / 60)
          ++ ':' :: pad2 (n.toNat % 60)) := by
  simp only [formatDuration]
  rw [if_pos h]

/-- Unfolding of `formatDuration` when only minutes are positive. -/
theorem formatDuration_minutes (n : Int) (h0 : n.toNat / 3600 = 0)
    (hm : 0 < n.toNat % 3600 / 60) :
    formatDuration n
      = String.mk (pad2 (n.toNat % 3600 / 60) ++ ':' :: pad2 (n.toNat % 60)) := by
  simp only [formatDuration]
  rw [if_neg (by omega), if_pos hm]

/-- Unfolding of `formatDuration` below one minute. -/
theorem formatDuration_seconds (n : Int) (h : n.toNat < 60) :
    formatDuration n = String.mk (natToDigits (n.toNat % 60) ++ ['s']) := by
  simp only [formatDuration]
  rw [if_neg (by omega), if_neg (by omega)]

/-- C7 amended: for every non-negative integer `n`, `formatDuration` renders
`H:MM:SS` with every component two-digit zero-padded (the hour exactly two
digits below 100 hours) when `n ≥ 3600`, `M:SS` with a two-digit zero-padded
minute component when `60 ≤ n < 3600`, and the bare-seconds form (the decimal
digits of `n` followed by `'s'`, no colon) when `n < 60`. -/
theorem formatDuration_spec (n : Int) (hn : 0 ≤ n) :
    (3600 ≤ n → formatDuration n
        = String.mk (pad2 (n.toNat / 3600) ++ ':' :: pad2 (n.toNat % 3600 / 60)
            ++ ':' :: pad2 (n.toNat % 60))
        ∧ (splitOnColon (formatDuration n).data).length = 3)
    ∧ (60 ≤ n → n < 3600 → formatDuration n
        = String.mk (pad2 (n.toNat / 60) ++ ':' :: pad2 (n.toNat % 60))
        ∧ (splitOnColon (formatDuration n).data).length = 2
        ∧ (pad2 (n.toNat / 60)).length = 2 ∧ (pad2 (n.toNat % 60)).length = 2)
    ∧ (n < 60 → formatDuration n = String.mk (natToDigits n.toNat ++ ['s'])
        ∧ ':' ∉ (formatDuration n).data) := by
  refine ⟨?_, ?_, ?_⟩
  · intro h3600
    have hh : 0 < n.toNat / 3600 := by omega
    refine ⟨formatDuration_hours n hh, ?_⟩
    rw [formatDuration_hours n hh]
    rw [show (String.mk (pad2 (n.toNat / 3600) ++ ':' :: pad2 (n.toNat % 3600 / 60)
        ++ ':' :: pad2 (n.toNat % 60))).data
      = pad2 (n.toNat / 3600) ++ ':' :: pad2 (n.toNat % 3600 / 60)
        ++ ':' :: pad2 (n.toNat % 60) from rfl]
    rw [splitOnColon_time]
    rfl
  · intro h60 h3600
    have h0 : n.toNat / 3600 = 0 := by omega
    have hmod : n.toNat % 3600 = n.toNat := by omega
    have hm : 0 < n.toNat % 3600 / 60 := by omega
    have heq := formatDuration_minutes n h0 hm
    rw [hmod] at heq
    refine ⟨heq, ?_, pad2_length_of_lt (by omega), pad2_length_of_lt (by omega)⟩
    rw [heq]
    rw [show (String.mk (pad2 (n.toNat / 60) ++ ':' :: pad2 (n.toNat % 60))).data
      = pad2 (n.toNat / 60) ++ ':' :: pad2 (n.toNat % 60) from rfl]
    rw [splitOnColon_time2]
    rfl
  · intro h60
    have hlt : n.toNat < 60 := by omega
    have heq := formatDuration_seconds n hlt
    rw [Nat.mod_eq_of_lt hlt] at heq
    refine ⟨heq, ?_⟩
    rw [heq]
    intro hc
    rw [show (String.mk (natToDigits n.toNat ++ ['s'])).data
      = natToDigits n.toNat ++ ['s'] from rfl] at hc
    rcases List.mem_append.mp hc with h | h
    · exact ne_colon_of_digit (natToDigits_digits n.toNat ':' h) rfl
    · simp at h

/-- Witness for C7's amended rendering rules at 3661, 300 and 45 seconds. -/
theorem formatDuration_spec_witness :
    (0:Int) ≤ 3661
      ∧ formatDuration 3661
          = String.mk (pad2 ((3661:Int).toNat / 3600)
              ++ ':' :: pad2 ((3661:Int).toNat % 3600 / 60)
              ++ ':' :: pad2 ((3661:Int).toNat % 60))
      ∧ formatDuration 300
          = String.mk (pad2 ((300:Int).toNat / 60) ++ ':' :: pad2 ((300:Int).toNat % 60))
      ∧ formatDuration 45 = String.mk (natToDigits (45:Int).toNat ++ ['s']) :=
  ⟨by decide,
   ((formatDuration_spec 3661 (by decide)).1 (by decide)).1,
   ((formatDuration_spec 300 (by decide)).2.1 (by decide) (by decide)).1,
   ((formatDuration_spec 45 (by decide)).2.2 (by decide)).1⟩

def wEmptyList : RoutineList := { id := "l0", title := "Abendroutine", routines := [] }

/-- C10: adding a routine to an empty list with no caller-supplied start time
defaults the new routine's start to the fixed `"08:00:00"`, with its end set
to `"08:00:00"` plus the duration. -/
theorem addRoutine_empty_default (list : RoutineList) (newId name : String)
    (d : Int) (h : list.routines = []) :
    addRoutineToListCore newId name d none list
      = { list with routines :=
          [{ id := newId, name := name, startTime := "08:00:00",
             durationSeconds := d,
             endTime := formatTimeFromDate
               (addSecondsToDate (parseTimeToDate "08:00:00") d) }] } := by
  unfold addRoutineToListCore
  rw [h]
  simp

/-- Witness for C10 at a 1500-second routine: the defaulted times evaluate to
`"08:00:00"` and `"08:25:00"`. -/
theorem addRoutine_empty_default_witness :
    wEmptyList.routines = [] ∧
    addRoutineToListCore "n1" "Lesen" 1500 none wEmptyList
      = { wEmptyList with routines :=
          [{ id := "n1", name := "Lesen", startTime := "08:00:00",
             durationSeconds := 1500, endTime := "08:25:00" }] } := by
  refine ⟨rfl, ?_⟩
  rw [addRoutine_empty_default wEmptyList "n1" "Lesen" 1500 rfl]
  decide

/-- C2: for the composed Add-routine operation (form guard plus list update):
with a valid name, a parsable positive duration and a non-empty supplied
start time, adding to an empty list makes the supplied start (with `":00"`
appended) the first routine's start; adding to a non-empty list appends a
routine starting at the current last routine's end time, and the supplied
start time is ignored (any two supplied values give the same result). In
both cases the appended routine's end is its start plus the duration. -/
theorem submitNewRoutine_spec (list : RoutineList)
    (newId name durationInput st : String) (d : Int)
    (hparse : parseDurationToSeconds durationInput = some d) (hd : 0 < d)
    (hname : jsTrimStr name ≠ "") :
    (list.routines = [] → st ≠ "" →
        submitNewRoutineToList newId name durationInput st list
          = { list with routines :=
              [{ id := newId, name := name, startTime := st ++ ":00",
                 durationSeconds := d,
                 endTime := formatTimeFromDate
                   (addSecondsToDate (parseTimeToDate (st ++ ":00")) d) }] })
    ∧ (∀ last : Routine, list.routines.getLast? = some last →
        submitNewRoutineToList newId name durationInput st list
          = { list with routines := list.routines
              ++ [{ id := newId, name := name, startTime := last.endTime,
                    durationSeconds := d,
                    endTime := formatTimeFromDate
                      (addSecondsToDate (parseTimeToDate last.endTime) d) }] }
        ∧ (∀ st' : String,
            submitNewRoutineToList newId name durationInput st' list
              = submitNewRoutineToList newId name durationInput st list)) := by
  have hguard : ¬ (jsTrimStr name = "" ∨ d ≤ 0) := by
    push_neg
    exact ⟨hname, hd⟩
  constructor
  · intro hempty hst
    have hlen : list.routines.length = 0 := by rw [hempty]; rfl
    simp only [submitNewRoutineToList, hparse, if_neg hguard, hlen, if_pos rfl]
    unfold addRoutineToListCore
    simp only [Option.getD_some]
    rw [if_pos (by simpa using hst), hempty]
    rfl
  · intro last hlast
    have hne : list.routines ≠ [] := by
      intro h0
      rw [h0] at hlast
      simp at hlast
    have hlen : ¬ list.routines.length = 0 := by
      simpa [List.length_eq_zero] using hne
    refine ⟨?_, ?_⟩
    · simp only [submitNewRoutineToList, hparse, if_neg hguard, if_neg hlen]
      unfold addRoutineToListCore
      simp only [Option.getD_none, ne_eq, not_true_eq_false, if_false,
        if_pos (Nat.pos_of_ne_zero hlen), hlast]
      simp
    · intro st'
      simp only [submitNewRoutineToList, hparse, if_neg hguard, if_neg hlen]

/-- Witness for C2 at the spec's example: routine "A", duration input "25"
(1500 seconds), empty list, supplied start "08:00" yields start "08:00:00"
and end "08:25:00"; on a non-empty list the appended routine chains from the
last end time and the supplied start is ignored. -/
theorem submitNewRoutine_spec_witness :
    parseDurationToSeconds "25" = some 1500 ∧ ((0:Int) < 1500 ∧ jsTrimStr "A" ≠ "")
    ∧ submitNewRoutineToList "r1" "A" "25" "08:00" wEmptyList
        = { wEmptyList with routines :=
            [{ id := "r1", name := "A", startTime := "08:00:00",
               durationSeconds := 1500, endTime := "08:25:00" }] }
    ∧ submitNewRoutineToList "r2" "B" "25" "23:59" wList
        = submitNewRoutineToList "r2" "B" "25" "06:00" wList := by
  refine ⟨by decide, ⟨by decide, by decide⟩, ?_, ?_⟩
  · have h := (submitNewRoutine_spec wEmptyList "r1" "A" "25" "08:00" 1500
      (by decide) (by decide) (by decide)).1 rfl (by decide)
    rw [h]
    decide
  · have h := ((submitNewRoutine_spec wList "r2" "B" "25" "06:00" 1500
      (by decide) (by decide) (by decide)).2 wRoutineB (by decide)).2 "23:59"
    exact h

/-- C3: a tick with more than one second left decrements the countdown on
the same routine and emits nothing. A tick with the countdown about to reach
zero (`timeLeftInSeconds ≤ 1`, i.e. one second left) first emits the
routine-complete notification carrying the current routine's name; then, if
the list still exists and has a routine at the next index, the timer runs
that routine with its full duration; otherwise exactly one all-complete
notification follows and the timer goes idle — no routine-complete
notification is ever emitted for a nonexistent next routine. -/
theorem timerTick_spec (lists : List RoutineList) (prev : ActiveRoutineState) :
    (1 < prev.timeLeftInSeconds →
        timerTick lists prev
          = (some { prev with timeLeftInSeconds := prev.timeLeftInSeconds - 1 }, []))
    ∧ (prev.timeLeftInSeconds ≤ 1 →
        ∀ l : RoutineList, lists.find? (fun l' => l'.id = prev.listId) = some l →
          (∀ nextRoutine : Routine,
              l.routines.get? (prev.currentRoutineIndex + 1) = some nextRoutine →
              timerTick lists prev
                = (some { listId := prev.listId
                          routineId := nextRoutine.id
                          currentRoutineIndex := prev.currentRoutineIndex + 1
                          timeLeftInSeconds := nextRoutine.durationSeconds
                          routineName := nextRoutine.name },
                   [TimerEvent.routineComplete prev.routineName]))
          ∧ (l.routines.get? (prev.currentRoutineIndex + 1) = none →
              timerTick lists prev
                = (none, [TimerEvent.routineComplete prev.routineName,
                    TimerEvent.allComplete l.title]))) := by
  refine ⟨?_, ?_⟩
  · intro h
    unfold timerTick
    rw [if_neg (by omega)]
  · intro hle l hfind
    constructor
    · intro nextRoutine hnext
      simp only [timerTick, if_pos hle, hfind, hnext]
    · intro hnone
      simp only [timerTick, if_pos hle, hfind, hnone]
      rfl

def wActiveMid : ActiveRoutineState :=
  { listId := "l1", routineId := "a", currentRoutineIndex := 0,
    timeLeftInSeconds := 5, routineName := "Aufstehen" }

def wActiveHandoff : ActiveRoutineState :=
  { listId := "l1", routineId := "a", currentRoutineIndex := 0,
    timeLeftInSeconds := 1, routineName := "Aufstehen" }

def wActiveLast : ActiveRoutineState :=
  { listId := "l1", routineId := "b", currentRoutineIndex := 1,
    timeLeftInSeconds := 1, routineName := "Duschen" }

/-- Witness for C3: a plain decrement, a hand-off to the next routine, and
the final tick of the last routine. -/
theorem timerTick_spec_witness :
    timerTick [wList] wActiveMid
        = (some { wActiveMid with timeLeftInSeconds := 4 }, [])
    ∧ timerTick [wList] wActiveHandoff
        = (some { listId := "l1", routineId := "b", currentRoutineIndex := 1,
                  timeLeftInSeconds := 600, routineName := "Duschen" },
           [TimerEvent.routineComplete "Aufstehen"])
    ∧ timerTick [wList] wActiveLast
        = (none, [TimerEvent.routineComplete "Duschen",
            TimerEvent.allComplete "Morgenroutine"]) := by
  refine ⟨?_, ?_, ?_⟩
  · exact (timerTick_spec [wList] wActiveMid).1 (by decide)
  · have h := ((timerTick_spec [wList] wActiveHandoff).2 (by decide) wList
      (by decide)).1 wRoutineB (by decide)
    rw [h]
    decide
  · have h := ((timerTick_spec [wList] wActiveLast).2 (by decide) wList
      (by decide)).2 (by decide)
    rw [h]
    decide

/-- A spliced-in element is a permutation-neutral insertion. -/
theorem jsSpliceInsert_perm (l : List RoutineList) (k : Nat) (x : RoutineList) :
    (jsSpliceInsert l k x).Perm (x :: l) := by
  unfold jsSpliceInsert
  have h := @List.perm_middle _ x (l.take k) (l.drop k)
  rw [List.take_append_drop] at h
  exact h

/-- Removing an indexed element and re-consing it is a permutation. -/
theorem perm_cons_eraseIdx {α : Type} :
    ∀ (l : List α) (s : Nat) (x : α), l.get? s = some x →
      (x :: l.eraseIdx s).Perm l := by
  intro l
  induction l with
  | nil => intro s x h; simp at h
  | cons y ys ih =>
    intro s x h
    cases s with
    | zero =>
      rw [List.get?_cons_zero] at h
      injection h with h'
      subst h'
      simp [List.eraseIdx]
    | succ s =>
      rw [List.get?_cons_succ] at h
      have hp := ih s x h
      have hswap : (x :: y :: ys.eraseIdx s).Perm (y :: x :: ys.eraseIdx s) :=
        List.Perm.swap y x _
      exact hswap.trans (hp.cons y)

/-- C9: moving a list reorders only the list collection: with the source
removed first, the insertion lands at `targetIndex - 1` when the source index
preceded the target and at `targetIndex` otherwise; the result is a
permutation of the original collection (so every list, with its entire
routine sequence, is unchanged), and the active timer component of the
application state is untouched by the operation. -/
theorem handleMoveList_spec (lists : List RoutineList) (s t : Nat)
    (movedList : RoutineList) (hs : lists.get? s = some movedList)
    (active : Option ActiveRoutineState) :
    handleMoveList lists s t
        = jsSpliceInsert (lists.eraseIdx s) (if s < t then t - 1 else t) movedList
    ∧ (handleMoveList lists s t).Perm lists
    ∧ (∀ l : RoutineList, l ∈ handleMoveList lists s t ↔ l ∈ lists)
    ∧ handleMoveListState lists active s t = (handleMoveList lists s t, active) := by
  have heq : handleMoveList lists s t
      = jsSpliceInsert (lists.eraseIdx s) (if s < t then t - 1 else t) movedList := by
    unfold handleMoveList
    rw [hs]
  have hperm : (handleMoveList lists s t).Perm lists := by
    rw [heq]
    exact (jsSpliceInsert_perm _ _ _).trans (perm_cons_eraseIdx lists s movedList hs)
  exact ⟨heq, hperm, fun l => hperm.mem_iff, rfl⟩

/-- Witness for C9: moving the first of three lists to the end. -/
theorem handleMoveList_spec_witness :
    [wList, wEmptyList].get? 0 = some wList
    ∧ handleMoveList [wList, wEmptyList] 0 2
        = jsSpliceInsert ([wList, wEmptyList].eraseIdx 0) (if 0 < 2 then 2 - 1 else 2) wList
    ∧ (handleMoveList [wList, wEmptyList] 0 2).Perm [wList, wEmptyList]
    ∧ handleMoveListState [wList, wEmptyList] none 0 2
        = (handleMoveList [wList, wEmptyList] 0 2, none) := by
  have h := handleMoveList_spec [wList, wEmptyList] 0 2 wList rfl none
  exact ⟨rfl, h.1, h.2.1, h.2.2.2⟩

/-- C8: deleting a routine removes the routine with the given id and
recalculates the list from `max 0 (deletedIndex - 1)` (with `deletedIndex =
-1` when the id is absent, JS `findIndex`). When the active timer belongs to
the list, it is stopped — with a spoken timer-invalidation notification —
exactly when the list became empty, the deleted routine was the active one,
or the active index no longer holds the active routine's id; otherwise the
timer keeps running (only its display name is refreshed from the routine at
its index, the same routine). A timer on a different list is never touched
and no notification is emitted. -/
theorem handleDeleteRoutine_spec (listId routineId : String) (now : Int)
    (act : ActiveRoutineState) (list : RoutineList) (hact : act.listId = listId) :
    (deleteFromMatchingList listId routineId now (some act) list).1
        = recalculateTimesInList now
            { list with routines := list.routines.filter (fun r => r.id ≠ routineId) }
            (max 0
              ((((list.routines.findIdx? (fun r => r.id = routineId)).map
                  Int.ofNat).getD (-1)) - 1)).toNat
    ∧ ((list.routines.filter (fun r => r.id ≠ routineId) = []
          ∨ act.routineId = routineId
          ∨ ((list.routines.filter (fun r => r.id ≠ routineId)).get?
              act.currentRoutineIndex).map Routine.id ≠ some act.routineId) →
        (deleteFromMatchingList listId routineId now (some act) list).2.1 = some none
        ∧ ∃ msg : String,
            (deleteFromMatchingList listId routineId now (some act) list).2.2
              = [TimerEvent.timerStopped msg])
    ∧ (¬ (list.routines.filter (fun r => r.id ≠ routineId) = []
          ∨ act.routineId = routineId
          ∨ ((list.routines.filter (fun r => r.id ≠ routineId)).get?
              act.currentRoutineIndex).map Routine.id ≠ some act.routineId) →
        (deleteFromMatchingList listId routineId now (some act) list).2.1
            = some (some { act with routineName :=
                ((((list.routines.filter (fun r => r.id ≠ routineId)).get?
                    act.currentRoutineIndex).map Routine.name).getD
                  act.routineName) })
        ∧ (deleteFromMatchingList listId routineId now (some act) list).2.2 = [])
    ∧ (∀ act' : ActiveRoutineState, act'.listId ≠ listId →
        (deleteFromMatchingList listId routineId now (some act') list).2.1 = none
        ∧ (deleteFromMatchingList listId routineId now (some act') list).2.2 = []) := by
  refine ⟨?_, ?_, ?_, ?_⟩
  · simp only [deleteFromMatchingList]
    rw [if_pos hact]
    split
    · rfl
    · split
      · rfl
      · rfl
  · intro hinv
    simp only [deleteFromMatchingList]
    rw [if_pos hact]
    by_cases h1 : (list.routines.filter (fun r => r.id ≠ routineId)).length = 0
        ∨ act.routineId = routineId
    · rw [if_pos h1]
      exact ⟨rfl, _, rfl⟩
    · rw [if_neg h1]
      have h3 : ((list.routines.filter (fun r => r.id ≠ routineId)).get?
          act.currentRoutineIndex).map Routine.id ≠ some act.routineId := by
        rcases hinv with he | hr | hmap
        · exact absurd (Or.inl (by rw [he]; rfl)) h1
        · exact absurd (Or.inr hr) h1
        · exact hmap
      rw [if_pos (Or.inr h3)]
      exact ⟨rfl, _, rfl⟩
  · intro hinv
    push_neg at hinv
    obtain ⟨hne, hrid, hmap⟩ := hinv
    simp only [deleteFromMatchingList]
    rw [if_pos hact]
    rw [if_neg (by
      push_neg
      refine ⟨?_, hrid⟩
      simpa [List.length_eq_zero] using hne)]
    rw [if_neg (by
      push_neg
      refine ⟨?_, hmap⟩
      by_contra hlt
      have : ((list.routines.filter (fun r => r.id ≠ routineId)).get?
          act.currentRoutineIndex).map Routine.id = none := by
        rw [List.get?_eq_none.mpr (by omega)]
        rfl
      rw [this] at hmap
      simp at hmap)]
    exact ⟨rfl, rfl⟩
  · intro act' hact'
    simp only [deleteFromMatchingList]
    rw [if_neg hact']
    exact ⟨rfl, rfl⟩

def wSoloRoutine : Routine :=
  { id := "c", name := "Packen", startTime := "07:00:00",
    durationSeconds := 300, endTime := "07:05:00" }

def wSoloList : RoutineList :=
  { id := "l2", title := "Reiseroutine", routines := [wSoloRoutine] }

def wActiveOther : ActiveRoutineState :=
  { listId := "l2", routineId := "c", currentRoutineIndex := 0,
    timeLeftInSeconds := 120, routineName := "Packen" }

/-- Witness for C8: deleting the only routine of a running single-routine
list stops the timer with a notification; deleting a later routine while the
first is active keeps the timer running; a timer bound to another list is
untouched. -/
theorem handleDeleteRoutine_spec_witness :
    ((deleteFromMatchingList "l2" "c" 0 (some wActiveOther) wSoloList).2.1 = some none
      ∧ ∃ msg : String,
          (deleteFromMatchingList "l2" "c" 0 (some wActiveOther) wSoloList).2.2
            = [TimerEvent.timerStopped msg])
    ∧ ((deleteFromMatchingList "l1" "b" 0 (some wActiveMid) wList).2.1
          = some (some wActiveMid)
      ∧ (deleteFromMatchingList "l1" "b" 0 (some wActiveMid) wList).2.2 = [])
    ∧ ((deleteFromMatchingList "l1" "a" 0 (some wActiveOther) wList).2.1 = none
      ∧ (deleteFromMatchingList "l1" "a" 0 (some wActiveOther) wList).2.2 = []) := by
  refine ⟨?_, ?_, ?_⟩
  · exact (handleDeleteRoutine_spec "l2" "c" 0 wActiveOther wSoloList rfl).2.1
      (Or.inl (by decide))
  · have h := (handleDeleteRoutine_spec "l1" "b" 0 wActiveMid wList rfl).2.2.1
      (by decide)
    refine ⟨?_, h.2⟩
    rw [h.1]
    decide
  · exact (handleDeleteRoutine_spec "l1" "a" 0 wActiveMid wList rfl).2.2.2
      wActiveOther (by decide)

/-- A non-whitespace member survives `dropWhile isWsChar`. -/
theorem mem_dropWhile_ws {c : Char} (hw : isWsChar c = false) :
    ∀ {l : List Char}, c ∈ l → c ∈ l.dropWhile isWsChar := by
  intro l
  induction l with
  | nil => intro h; simp at h
  | cons d l ih =>
    intro h
    by_cases hd : isWsChar d = true
    · rcases List.mem_cons.mp h with rfl | h
      · rw [hd] at hw; cases hw
      · simpa [List.dropWhile, hd] using ih h
    · simpa [List.dropWhile, Bool.eq_false_iff.mpr hd] using h

/-- A non-whitespace member survives JS trimming. -/
theorem mem_jsTrim {c : Char} {cs : List Char} (h : c ∈ cs)
    (hw : isWsChar c = false) : c ∈ jsTrim cs := by
  unfold jsTrim
  rw [List.mem_reverse]
  exact mem_dropWhile_ws hw (List.mem_reverse.mpr (mem_dropWhile_ws hw h))

/-- The canonical rendering of an integer contains no colon. -/
theorem colon_not_mem_intToString (n : Int) : ':' ∉ (intToString n).data := by
  unfold intToString
  split
  · intro h
    rw [show (String.mk ('-' :: natToDigits (-n).toNat)).data
        = '-' :: natToDigits (-n).toNat from rfl] at h
    rcases List.mem_cons.mp h with h | h
    · cases h
    · exact ne_colon_of_digit (natToDigits_digits _ _ h) rfl
  · intro h
    rw [show (String.mk (natToDigits n.toNat)).data = natToDigits n.toNat from rfl] at h
    exact ne_colon_of_digit (natToDigits_digits _ _ h) rfl

/-- The canonical rendering of an integer is never the empty string. -/
theorem intToString_ne_empty (n : Int) : intToString n ≠ "" := by
  unfold intToString
  split
  · intro h
    have hd : ('-' :: natToDigits (-n).toNat) = [] := congrArg String.data h
    cases hd
  · intro h
    exact natToDigits_ne_nil _ (congrArg String.data h)

/-- On input containing a colon, `parseDurationToSeconds` always takes the
colon branch: the bare-number branch cannot fire because the trimmed input
retains the colon while `String(Number(input))` never contains one. -/
theorem parseDurationToSeconds_colon (s : String) (hc : ':' ∈ s.data) :
    parseDurationToSeconds s = parseDurationColon s := by
  have htr : ':' ∈ jsTrim s.data := mem_jsTrim hc (by decide)
  have hne : ¬ jsTrimStr s = "" := by
    intro h0
    have hdata : jsTrim s.data = [] := congrArg String.data h0
    rw [hdata] at htr
    simp at htr
  unfold parseDurationToSeconds
  rw [if_neg hne]
  cases hjs : jsNumber s with
  | none => rfl
  | some n =>
    have hcanon : ¬ intToString n = jsTrimStr s := by
      intro he
      have : ':' ∈ (intToString n).data := by
        rw [he]
        exact htr
      exact colon_not_mem_intToString n this
    exact if_neg hcanon

/-- The colon branch on an `HH:MM:SS` rendering reads back the three
fields. -/
theorem parseDurationColon_time3 (a b c : Nat) :
    parseDurationColon (String.mk (pad2 a ++ ':' :: pad2 b ++ ':' :: pad2 c))
      = some (max 0 ((a:Int) * 3600 + (b:Int) * 60 + (c:Int))) := by
  unfold parseDurationColon
  rw [show (String.mk (pad2 a ++ ':' :: pad2 b ++ ':' :: pad2 c)).data
      = pad2 a ++ ':' :: pad2 b ++ ':' :: pad2 c from rfl, splitOnColon_time]
  simp [jsNumberChars_pad2, List.getD]

/-- The colon branch on an `MM:SS` rendering reads back the two fields. -/
theorem parseDurationColon_time2 (a b : Nat) :
    parseDurationColon (String.mk (pad2 a ++ ':' :: pad2 b))
      = some (max 0 ((a:Int) * 60 + (b:Int))) := by
  unfold parseDurationColon
  rw [show (String.mk (pad2 a ++ ':' :: pad2 b)).data
      = pad2 a ++ ':' :: pad2 b from rfl, splitOnColon_time2]
  simp [jsNumberChars_pad2, List.getD]

/-- The colon is a member of an `HH:MM:SS` rendering. -/
theorem colon_mem_time3 (a b c : Nat) :
    ':' ∈ pad2 a ++ ':' :: pad2 b ++ ':' :: pad2 c :=
  List.mem_append.mpr (Or.inr (by simp))

/-- The colon is a member of an `MM:SS` rendering. -/
theorem colon_mem_time2 (a b : Nat) : ':' ∈ pad2 a ++ ':' :: pad2 b :=
  List.mem_append.mpr (Or.inr (by simp))

/-- C5: for every integer number of seconds `n ≥ 60`, parsing the formatted
duration round-trips: `parseDurationToSeconds (formatDuration n) = some n`
(format-then-parse is stable for all values at or above one minute, where
the bare-seconds form is not used). -/
theorem parseDuration_formatDuration_roundtrip (n : Int) (h : 60 ≤ n) :
    parseDurationToSeconds (formatDuration n) = some n := by
  by_cases h3600 : (3600:Int) ≤ n
  · have hh : 0 < n.toNat / 3600 := by omega
    rw [formatDuration_hours n hh]
    rw [parseDurationToSeconds_colon _ (colon_mem_time3 _ _ _),
      parseDurationColon_time3]
    have hE : ((n.toNat / 3600 : Nat) : Int) * 3600
        + ((n.toNat % 3600 / 60 : Nat) : Int) * 60 + ((n.toNat % 60 : Nat) : Int)
        = n := by omega
    rw [hE, max_eq_right (by omega : (0:Int) ≤ n)]
  · have h0 : n.toNat / 3600 = 0 := by omega
    have hm : 0 < n.toNat % 3600 / 60 := by omega
    rw [formatDuration_minutes n h0 hm]
    rw [parseDurationToSeconds_colon _ (colon_mem_time2 _ _),
      parseDurationColon_time2]
    have hE : ((n.toNat % 3600 / 60 : Nat) : Int) * 60 + ((n.toNat % 60 : Nat) : Int)
        = n := by omega
    rw [hE, max_eq_right (by omega : (0:Int) ≤ n)]

/-- Witness for C5 at 3661 and 90 seconds. -/
theorem parseDuration_formatDuration_roundtrip_witness :
    ((60:Int) ≤ 3661 ∧ parseDurationToSeconds (formatDuration 3661) = some 3661)
    ∧ ((60:Int) ≤ 90 ∧ parseDurationToSeconds (formatDuration 90) = some 90) :=
  ⟨⟨by decide, parseDuration_formatDuration_roundtrip 3661 (by decide)⟩,
   ⟨by decide, parseDuration_formatDuration_roundtrip 90 (by decide)⟩⟩

/-- C4 counterexample: `"08"` is a bare numeric string (all decimal digits),
for which the claim prescribes `max(0, 8*60) = 480` seconds; the code's
canonical-form check (`String(Number(input)) === input.trim()`) rejects it,
and the colon branch then rejects the single-part split, so the code returns
invalid. -/
theorem parseDurationToSeconds_bare_counterexample :
    parseDurationToSeconds "08" = none
      ∧ parseDurationToSeconds "08" ≠ some 480
      ∧ (∀ ch ∈ "08".data, isDigitChar ch = true) :=
  ⟨by decide, by decide, by decide⟩

/-- Every value produced by the colon branch is clamped at zero. -/
theorem parseDurationColon_nonneg (s : String) (v : Int)
    (h : parseDurationColon s = some v) : 0 ≤ v := by
  simp only [parseDurationColon] at h
  split at h
  · exact absurd h (by simp)
  · split at h
    · injection h with h'
      rw [← h']
      exact le_max_left 0 _
    · split at h
      · injection h with h'
        rw [← h']
        exact le_max_left 0 _
      · exact absurd h (by simp)

/-- C4 amended: for every input string, `parseDurationToSeconds` returns:
invalid for empty/whitespace-only input; for a bare numeric string in
canonical form (the trimmed input equals `String(Number(input))`), the number
interpreted as whole minutes, clamped at zero (`max 0 (n*60)`); for a
colon-separated form with exactly 2 numeric parts `MM:SS`, `max 0 (m*60+s)`;
with exactly 3 numeric parts `H:MM:SS`, `max 0 (h*3600+m*60+s)`; and invalid
for any `NaN` part, for 4 or more parts, and for a single part that is not a
canonical bare numeral (such as `"08"`). The result is never negative. -/
theorem parseDurationToSeconds_spec :
    (∀ s : String, jsTrimStr s = "" → parseDurationToSeconds s = none)
    ∧ (∀ (s : String) (n : Int), jsNumber s = some n → intToString n = jsTrimStr s →
        parseDurationToSeconds s = some (max 0 (n * 60)))
    ∧ (∀ (s : String) (xs ys : List Char) (m sec : Int),
        s.data = xs ++ ':' :: ys → (∀ ch ∈ xs, ch ≠ ':') → (∀ ch ∈ ys, ch ≠ ':') →
        jsNumberChars xs = some m → jsNumberChars ys = some sec →
        parseDurationToSeconds s = some (max 0 (m * 60 + sec)))
    ∧ (∀ (s : String) (xs ys zs : List Char) (hh mm sec : Int),
        s.data = xs ++ ':' :: ys ++ ':' :: zs →
        (∀ ch ∈ xs, ch ≠ ':') → (∀ ch ∈ ys, ch ≠ ':') → (∀ ch ∈ zs, ch ≠ ':') →
        jsNumberChars xs = some hh → jsNumberChars ys = some mm →
        jsNumberChars zs = some sec →
        parseDurationToSeconds s = some (max 0 (hh * 3600 + mm * 60 + sec)))
    ∧ (∀ (s : String) (p : List Char), ':' ∈ s.data → p ∈ splitOnColon s.data →
        jsNumberChars p = none → parseDurationToSeconds s = none)
    ∧ (∀ s : String, ':' ∈ s.data → 4 ≤ (splitOnColon s.data).length →
        parseDurationToSeconds s = none)
    ∧ (∀ s : String, ':' ∉ s.data →
        (∀ n : Int, jsNumber s = some n → intToString n ≠ jsTrimStr s) →
        parseDurationToSeconds s = none)
    ∧ (∀ (s : String) (v : Int), parseDurationToSeconds s = some v → 0 ≤ v) := by
  refine ⟨?_, ?_, ?_, ?_, ?_, ?_, ?_, ?_⟩
  · intro s hs
    unfold parseDurationToSeconds
    rw [if_pos hs]
  · intro s n hjs hcanon
    have hne : ¬ jsTrimStr s = "" := by
      intro h0
      rw [h0] at hcanon
      exact intToString_ne_empty n hcanon
    unfold parseDurationToSeconds
    rw [if_neg hne, hjs]
    exact if_pos hcanon
  · intro s xs ys m sec hdata hxs hys hm hsec
    have hcolon : ':' ∈ s.data := by
      rw [hdata]
      exact List.mem_append.mpr (Or.inr (by simp))
    rw [parseDurationToSeconds_colon s hcolon]
    simp only [parseDurationColon]
    rw [hdata, splitOnColon_append hxs, splitOnColon_no_colon hys]
    simp [hm, hsec]
  · intro s xs ys zs hh mm sec hdata hxs hys hzs hhv hmv hsv
    have hcolon : ':' ∈ s.data := by
      rw [hdata]
      exact List.mem_append.mpr (Or.inr (by simp))
    rw [parseDurationToSeconds_colon s hcolon]
    simp only [parseDurationColon]
    rw [hdata, List.append_assoc, List.cons_append, splitOnColon_append hxs,
      splitOnColon_append hys, splitOnColon_no_colon hzs]
    simp [hhv, hmv, hsv]
  · intro s p hcolon hp hnum
    rw [parseDurationToSeconds_colon s hcolon]
    simp only [parseDurationColon]
    rw [if_pos]
    apply List.any_eq_true.mpr
    refine ⟨none, ?_, rfl⟩
    rw [← hnum]
    exact List.mem_map_of_mem jsNumberChars hp
  · intro s hcolon hlen
    rw [parseDurationToSeconds_colon s hcolon]
    simp only [parseDurationColon]
    split
    · rfl
    · rw [if_neg (by rw [List.length_map, List.length_map]; omega),
        if_neg (by rw [List.length_map, List.length_map]; omega)]
  · intro s hnocolon hncanon
    by_cases hs : jsTrimStr s = ""
    · unfold parseDurationToSeconds
      rw [if_pos hs]
    · have hsplit : splitOnColon s.data = [s.data] :=
        splitOnColon_no_colon (fun c hc => by
          intro he
          rw [he] at hc
          exact hnocolon hc)
      have hcolonbranch : parseDurationColon s = none := by
        simp only [parseDurationColon]
        rw [hsplit]
        cases hjs : jsNumberChars s.data with
        | none => simp
        | some n => simp
      unfold parseDurationToSeconds
      rw [if_neg hs]
      cases hjs : jsNumber s with
      | none => exact hcolonbranch
      | some n =>
        show (if intToString n = jsTrimStr s then some (max 0 (n * 60))
            else parseDurationColon s) = none
        rw [if_neg (hncanon n hjs)]
        exact hcolonbranch
  · intro s v h
    unfold parseDurationToSeconds at h
    split at h
    · exact absurd h (by simp)
    · split at h
      · split at h
        · injection h with h'
          rw [← h']
          exact le_max_left 0 _
        · exact parseDurationColon_nonneg s v h
      · exact parseDurationColon_nonneg s v h

/-- Witness for C4's amended parser specification across all branches. -/
theorem parseDurationToSeconds_spec_witness :
    parseDurationToSeconds " " = none
    ∧ parseDurationToSeconds "25" = some 1500
    ∧ parseDurationToSeconds "2:05" = some 125
    ∧ parseDurationToSeconds "1:02:05" = some 3725
    ∧ parseDurationToSeconds "1:xx" = none
    ∧ parseDurationToSeconds "1:2:3:4" = none
    ∧ parseDurationToSeconds "08" = none := by
  obtain ⟨h1, h2, h3, h4, h5, h6, h7, _⟩ := parseDurationToSeconds_spec
  refine ⟨?_, ?_, ?_, ?_, ?_, ?_, ?_⟩
  · exact h1 " " (by decide)
  · rw [h2 "25" 25 (by decide) (by decide)]
    decide
  · rw [h3 "2:05" ['2'] ['0', '5'] 2 5 (by decide) (by decide) (by decide)
      (by decide) (by decide)]
    decide
  · rw [h4 "1:02:05" ['1'] ['0', '2'] ['0', '5'] 1 2 5 (by decide) (by decide)
      (by decide) (by decide) (by decide) (by decide) (by decide)]
    decide
  · exact h5 "1:xx" ['x', 'x'] (by decide) (by decide) (by decide)
  · exact h6 "1:2:3:4" (by decide) (by decide)
  · refine h7 "08" (by decide) ?_
    intro n hn
    have h8 : jsNumber "08" = some 8 := by decide
    rw [h8] at hn
    injection hn with hn'
    rw [← hn']
    decide

example : formatTimeLeft 0 = "00:00" := by decide
example : formatTimeLeft 3661 = "01:01:01" := by decide
example : formatDuration 3661 = "01:01:01" := by decide
example : formatDuration 300 = "05:00" := by decide
example : formatDuration 45 = "45s" := by decide
example : parseDurationToSeconds "25" = some 1500 := by decide
example : parseDurationToSeconds "08" = none := by decide
example : parseDurationToSeconds "0:25:00" = some 1500 := by decide
example : parseDurationToSeconds "-5" = some 0 := by decide
example : parseDurationToSeconds "" = none := by decide
example : parseTimeToDate "08:00:00" = 28800 := by decide
example : formatTimeFromDate (28800 + 1500) = "08:25:00" := by decide
